import Mathlib

/-
Verification development for the receipt-scanning backend (src/app.py).

Embedding conventions: Python strings are modelled as Lean `String` /
`List Char`; Python floats as `ℚ`, with `round(x, 2)` modelled as
round-half-to-even on rationals; Python exceptions as `Except`; the OCR
engine and the language-model service as explicit inputs (they are external
collaborators).  Each definition is translated from the corresponding
function of src/app.py; the few definitions that instead transcribe the
specification's words (for refinement comparisons) say so in their doc
comments.
-/

/-- The whitespace characters removed by Python `str.strip` and matched by
regex `\s` (ASCII range; receipt OCR text is ASCII). -/
def isPySpace (c : Char) : Bool :=
  c == ' ' || c == '\t' || c == '\n' || c == '\r' || c == '\x0b' || c == '\x0c'

/-- Python `str.strip` on a character list: drop whitespace from both ends. -/
def stripList (l : List Char) : List Char :=
  ((l.dropWhile isPySpace).reverse.dropWhile isPySpace).reverse

/-- Python `str.strip`. -/
def pyStrip (s : String) : String := String.mk (stripList s.toList)

/-- `l₁` occurs at the start of `l₂` (Python `str.startswith`). -/
def listPrefixB : List Char → List Char → Bool
  | [], _ => true
  | _ :: _, [] => false
  | a :: n, b :: h => a == b && listPrefixB n h

/-- `n` occurs as a contiguous substring of `h` (Python `in` on strings). -/
def listInfixB : List Char → List Char → Bool
  | n, [] => n.isEmpty
  | n, c :: h => listPrefixB n (c :: h) || listInfixB n h

/-- Round half to even (the rounding of Python's builtin `round`), to an
integer. -/
def rhe (x : ℚ) : ℤ :=
  if x - x.floor < 1 / 2 then x.floor
  else if 1 / 2 < x - x.floor then x.floor + 1
  else if 2 ∣ x.floor then x.floor else x.floor + 1

/-- Python `round(x, 2)`. -/
def pyRound2 (x : ℚ) : ℚ := (rhe (x * 100) : ℚ) / 100

/-- The filter of the token-confidence comprehension in
`get_tesseract_confidence` (src/app.py line 48-51): keep a `(text, conf)`
entry when `int(conf) > 0 and text.strip()`.  Tokens are modelled as
`(token text, confidence)` pairs, zipped as in the source. -/
def keepTok (p : String × Int) : Bool :=
  decide (0 < p.2) && !(stripList p.1.toList).isEmpty

/-- `get_tesseract_confidence` (src/app.py lines 42-57): filter the
token-confidence pairs, return 0.3 when nothing remains, otherwise
`round(sum(confidences) / len(confidences) / 100, 2)`. -/
def get_tesseract_confidence (tokens : List (String × Int)) : ℚ :=
  let confidences := tokens.filterMap fun p => if keepTok p then some p.2 else none
  if confidences = [] then 3 / 10
  else pyRound2 (((confidences.sum : ℤ) : ℚ) / (confidences.length : ℚ) / 100)

/-- The Confidence Scorer as the specification words it (spec §4.1): filter
to entries whose confidence is > 0 and whose trimmed token text is
non-empty; if the filtered set is empty return the fixed fallback 0.3,
otherwise the mean of the filtered confidences divided by 100, rounded to
2 decimal places. -/
def confidenceScoreSpec (tokens : List (String × Int)) : ℚ :=
  let kept := tokens.filter keepTok
  if kept = [] then 3 / 10
  else pyRound2 ((((kept.map Prod.snd).sum : ℤ) : ℚ) / (kept.length : ℚ) / 100)

/-- The confidence gate of `parse_receipt_with_ai` (src/app.py lines 63-67):
`if ocr_confidence < MIN_OCR_CONFIDENCE: raise ValueError(...)`.  The raised
error carries the measured score and the threshold; on `.ok` the pipeline
continues to the language-model call, which the `.error` branch never
reaches. -/
def parse_receipt_gate (ocr_confidence MIN_OCR_CONFIDENCE : ℚ) :
    Except (ℚ × ℚ) Unit :=
  if ocr_confidence < MIN_OCR_CONFIDENCE then
    Except.error (ocr_confidence, MIN_OCR_CONFIDENCE)
  else Except.ok ()

/-- The line boundaries recognised by Python `str.splitlines`. -/
def isLineBreak (c : Char) : Bool :=
  c == '\n' || c == '\r' || c == '\x0b' || c == '\x0c' ||
  c == '\x1c' || c == '\x1d' || c == '\x1e' || c == '\x85' ||
  c == '\u2028' || c == '\u2029'

/-- Worker for `str.splitlines`: `acc` is the reversed current line.  A
trailing boundary produces no extra empty line, and `"\r\n"` is one
boundary. -/
def pySplitlinesAux : List Char → List Char → List String
  | [], acc => if acc.isEmpty then [] else [String.mk acc.reverse]
  | '\r' :: '\n' :: rest, acc => String.mk acc.reverse :: pySplitlinesAux rest []
  | c :: rest, acc =>
    if isLineBreak c then String.mk acc.reverse :: pySplitlinesAux rest []
    else pySplitlinesAux rest (c :: acc)

/-- Python `str.splitlines` (`raw_text.splitlines()`, src/app.py line 194). -/
def pySplitlines (s : String) : List String := pySplitlinesAux s.toList []

/-- Numeric value of a run of decimal digit characters. -/
def digitsToNat (l : List Char) : Nat :=
  l.foldl (fun acc c => 10 * acc + (c.toNat - 48)) 0

/-- Value of a price written `<digits><sep><d1><d2>` with two decimal
places (already comma-normalised: `.` and `,` separate identically). -/
def twoDecVal (ip : List Char) (d1 d2 : Char) : ℚ :=
  (digitsToNat ip : ℚ) + ((10 * (d1.toNat - 48) + (d2.toNat - 48) : ℕ) : ℚ) / 100

/-- Worker for `re.findall(r'\d+\.\d{2}', line)`: at each position try a
maximal digit run followed by `.` and two digits (shortening the greedy
`\d+` never helps, since the character after a shortened run is a digit,
not `.`); on success continue after the match, on failure advance one
character.  Fuel is the length of the list, consumed at least one
character per step. -/
def findTwoDecAux : Nat → List Char → List ℚ
  | 0, _ => []
  | _ + 1, [] => []
  | fuel + 1, c :: rest =>
    if c.isDigit then
      match (c :: rest).span Char.isDigit with
      | (ds, '.' :: a :: b :: r2) =>
        if a.isDigit && b.isDigit then twoDecVal ds a b :: findTwoDecAux fuel r2
        else findTwoDecAux fuel rest
      | _ => findTwoDecAux fuel rest
    else findTwoDecAux fuel rest

/-- `re.findall(r'\d+\.\d{2}', line)` as the list of matched values
(src/app.py lines 212 and 220; `float` of each match never fails). -/
def findTwoDec (l : List Char) : List ℚ := findTwoDecAux l.length l

/-- Exactly `n` decimal digits, returning the rest of the list. -/
def takeDigitsExact : Nat → List Char → Option (List Char)
  | 0, l => some l
  | _ + 1, [] => none
  | n + 1, c :: r => if c.isDigit then takeDigitsExact n r else none

/-- A date separator: a slash or a hyphen. -/
def isDateSep (c : Char) : Bool := c == '/' || c == '-'

/-- Match of the date pattern (one or two digits, a slash-or-hyphen
separator, one or two digits, a separator, two to four digits) anchored at the head of the
list.  For existence of a match, trying both counts of each bounded digit
group is equivalent to the engine's greedy backtracking, and the final
`\d{2,4}` matches exactly when at least two digits follow. -/
def dateMatchAt (l : List Char) : Bool :=
  [1, 2].any fun a =>
    match takeDigitsExact a l with
    | none => false
    | some r1 =>
      match r1 with
      | [] => false
      | s1 :: r2 =>
        isDateSep s1 &&
        ([1, 2].any fun b =>
          match takeDigitsExact b r2 with
          | none => false
          | some r3 =>
            match r3 with
            | [] => false
            | s2 :: r4 => isDateSep s2 && (takeDigitsExact 2 r4).isSome)

/-- The date-pattern `re.search` of src/app.py as a Boolean
(src/app.py line 226): a match starting at some position. -/
def dateSearch : List Char → Bool
  | [] => false
  | c :: rest => dateMatchAt (c :: rest) || dateSearch rest

/-- `re.search(r'(.*?)\s*[\$]?\s*(\d+[.,]\d{2})$', line_stripped)`
(src/app.py line 231).  Because the price part is anchored at the end and
the lazy `(.*?)` can absorb anything, a match exists exactly when the line
ends in `\d+[.,]\d\d`; laziness of group 1 makes the integer digit run
maximal and lets the middle `\s*[\$]?\s*` absorb, right to left, a
whitespace run, at most one `$`, and another whitespace run.  Returns
`(group 1, integer digits, first decimal, second decimal)`. -/
def priceMatch (l : List Char) : Option (List Char × List Char × Char × Char) :=
  match l.reverse with
  | d2 :: d1 :: sep :: restRev =>
    if d2.isDigit && d1.isDigit && (sep == '.' || sep == ',') then
      match restRev.span Char.isDigit with
      | (dsRev, afterDigitsRev) =>
        if dsRev.isEmpty then none
        else
          let afterWs := afterDigitsRev.dropWhile isPySpace
          let afterDollar := match afterWs with
            | '$' :: t => t
            | t => t
          some ((afterDollar.dropWhile isPySpace).reverse, dsRev.reverse, d1, d2)
    else none
  | _ => none

/-- `re.match(r'(\d+)\s*x\s*(.*)', description, re.IGNORECASE)`
(src/app.py line 242): a leading digit run, optional whitespace, `x` or
`X`, optional whitespace, and the rest of the description.  Returns the
captured quantity literal and group 2. -/
def qtyMatch (l : List Char) : Option (Nat × List Char) :=
  match l.span Char.isDigit with
  | ([], _) => none
  | (ds, rest1) =>
    match rest1.dropWhile isPySpace with
    | c :: rest2 =>
      if c == 'x' || c == 'X' then some (digitsToNat ds, rest2.dropWhile isPySpace)
      else none
    | [] => none

/-- A deterministically extracted line item (items built at src/app.py
lines 251-256; at that point no category has been assigned yet). -/
structure RawItem where
  description : String
  quantity : Nat
  unitPrice : ℚ
  total : ℚ
deriving DecidableEq, Repr

/-- The summary words that disqualify a price-suffixed line from being an
item (src/app.py line 237). -/
def blockedWords : List String :=
  ["total", "subtotal", "tax", "balance", "change", "cash", "card"]

/-- The item branch of `scan_receipt`'s loop (src/app.py lines 230-258),
applied to the stripped line.  `Except.error ()` is the uncaught
`ZeroDivisionError` raised by `round(item_price / quantity, 2)` when the
quantity regex captures `0` (`int(qty_match.group(1)) == 0`); the
surrounding `except ValueError` does not catch it.  `Except.ok none` is a
line yielding no item. -/
def parseItemLine (lineStripped : String) : Except Unit (Option RawItem) :=
  match priceMatch lineStripped.toList with
  | none => Except.ok none
  | some (g1, ip, d1, d2) =>
    let description := stripList g1
    let price := twoDecVal ip d1 d2
    if description.isEmpty then Except.ok none
    else if blockedWords.any
        (fun w => listInfixB w.toList (description.map Char.toLower)) then
      Except.ok none
    else
      match qtyMatch description with
      | some (quantity, g2) =>
        if quantity = 0 then Except.error ()
        else
          Except.ok (some
            { description := String.mk (stripList g2)
              quantity := quantity
              unitPrice := pyRound2 (price / (quantity : ℚ))
              total := price })
      | none =>
        Except.ok (some
          { description := String.mk description
            quantity := 1
            unitPrice := price
            total := price })

/-- `"subtotal" in line.lower() or "total" in line.lower()`
(src/app.py line 210). -/
def hasTotalKw (line : String) : Bool :=
  listInfixB "subtotal".toList (line.toList.map Char.toLower) ||
  listInfixB "total".toList (line.toList.map Char.toLower)

/-- `"tax" in line.lower()` (src/app.py line 218). -/
def hasTaxKw (line : String) : Bool :=
  listInfixB "tax".toList (line.toList.map Char.toLower)

/-- The mutable locals of `scan_receipt`'s extraction loop
(src/app.py lines 196-199). -/
structure ExtractAcc where
  date : String
  total : ℚ
  tax : ℚ
  items : List RawItem
deriving DecidableEq, Repr

/-- One iteration of `scan_receipt`'s per-line loop (src/app.py
lines 202-258): skip blank lines, then total/subtotal keyword, then tax
keyword, then date pattern, else the item branch.  The total and tax
branches keep the running value when the line holds no `\d+\.\d{2}`
number, and take the last such number otherwise. -/
def processLine (acc : ExtractAcc) (line : String) : Except Unit ExtractAcc :=
  if pyStrip line = "" then Except.ok acc
  else if hasTotalKw line then
    Except.ok { acc with total := ((findTwoDec line.toList).getLast?).getD acc.total }
  else if hasTaxKw line then
    Except.ok { acc with tax := ((findTwoDec line.toList).getLast?).getD acc.tax }
  else if dateSearch line.toList then
    Except.ok { acc with date := pyStrip line }
  else
    match parseItemLine (pyStrip line) with
    | Except.error e => Except.error e
    | Except.ok none => Except.ok acc
    | Except.ok (some it) => Except.ok { acc with items := acc.items ++ [it] }

/-- The extraction loop over all lines. -/
def scanLines (acc : ExtractAcc) : List String → Except Unit ExtractAcc
  | [] => Except.ok acc
  | l :: rest =>
    match processLine acc l with
    | Except.error e => Except.error e
    | Except.ok acc2 => scanLines acc2 rest

/-- `store = lines[0] if lines else "Unknown Store"` (src/app.py
line 195): the first raw line, whatever its content. -/
def storeOf (raw_text : String) : String :=
  match pySplitlines raw_text with
  | [] => "Unknown Store"
  | l :: _ => l

/-- The store rule as the claim words it: the first non-empty line of the
whole text (leading empty or whitespace-only lines skipped), `"Unknown
Store"` when there is none. -/
def firstNonEmptyLineStore (raw_text : String) : String :=
  ((pySplitlines raw_text).filter fun l => !(pyStrip l == "")).headD "Unknown Store"

/-- The fields of the deterministic scan response (src/app.py
lines 274-283), without the echoed raw text and confidence. -/
structure ScanResult where
  store : String
  date : String
  total : ℚ
  tax : ℚ
  items : List RawItem
deriving DecidableEq, Repr

/-- The deterministic extraction of `scan_receipt` on the OCR text
(src/app.py lines 194-283 without the categorization phase):
`Except.error ()` is the `ZeroDivisionError` escaping to the route's
`except Exception` handler, which answers with an error response instead
of the success record. -/
def scanExtract (raw_text : String) : Except Unit ScanResult :=
  match scanLines ⟨"", 0, 0, []⟩ (pySplitlines raw_text) with
  | Except.error e => Except.error e
  | Except.ok acc =>
    Except.ok ⟨storeOf raw_text, acc.date, acc.total, acc.tax, acc.items⟩

/-- The closed category set `CATEGORIES` (src/app.py lines 31-40). -/
def CATEGORIES : List String :=
  ["Groceries", "Dining", "Transport", "Entertainment", "Shopping",
   "Health", "Utilities", "Uncategorized"]

/-- An item dict during categorization: the raw fields plus the
`'category'` key, absent until assigned. -/
structure CatItem extends RawItem where
  category : Option String
deriving DecidableEq, Repr

/-- The assignment loop of `categorize_items_with_ai` (src/app.py
lines 168-173): positional labels while they last, coercing any label
outside `CATEGORIES` to `'Uncategorized'`; items beyond the label list get
`'Uncategorized'`. -/
def assignCategories : List CatItem → List String → List CatItem
  | [], _ => []
  | it :: rest, c :: cs =>
    { it with category := some (if c ∈ CATEGORIES then c else "Uncategorized") } ::
      assignCategories rest cs
  | it :: rest, [] =>
    { it with category := some "Uncategorized" } :: assignCategories rest []

/-- `categorize_items_with_ai` (src/app.py lines 129-175) once the model
call and JSON decode have produced a list of labels; the early return on
an empty item list included. -/
def categorize_items_with_ai (items : List CatItem) (labels : List String) :
    List CatItem :=
  if items.isEmpty then items else assignCategories items labels

/-- Outcome of the categorization model call as `scan_receipt` sees it:
either a decoded list of labels, or any raised failure (network error,
fence/JSON decode error, or a decoded value that is not indexable by
position — every such exception propagates out of
`categorize_items_with_ai` before any item is mutated and is caught by
`scan_receipt`'s `except Exception`). -/
inductive CatOutcome where
  | failure : CatOutcome
  | labels : List String → CatOutcome
deriving DecidableEq

/-- `for item in items: item['category'] = 'Uncategorized'` (src/app.py
lines 267-268 and 271-272). -/
def setAllUncategorized (items : List CatItem) : List CatItem :=
  items.map fun it => { it with category := some "Uncategorized" }

/-- The categorization phase of `scan_receipt` (src/app.py lines 260-272):
with items and AI enabled, use the model outcome, recovering from any
failure by assigning `'Uncategorized'` everywhere; with items and no AI,
assign `'Uncategorized'` everywhere; with no items, do nothing.  The phase
always returns (the route then answers with the success record). -/
def scanCategorizePhase (aiEnabled : Bool) (outcome : CatOutcome)
    (items : List CatItem) : List CatItem :=
  if !items.isEmpty && aiEnabled then
    match outcome with
    | CatOutcome.labels ls => categorize_items_with_ai items ls
    | CatOutcome.failure => setAllUncategorized items
  else if !items.isEmpty then setAllUncategorized items
  else items

/-- The category the claim demands for the item at position `i` of the
categorization phase: with AI enabled and a decoded label list, the
positional label when it exists and belongs to the closed set, and
`"Uncategorized"` filling every gap — a label list shorter than the item
list, a label outside the closed set, a model failure, or AI disabled.
Worded from the claim, to be compared with the phase embedded from the
source. -/
def claimedCategory (aiEnabled : Bool) (outcome : CatOutcome) (i : ℕ) : String :=
  match aiEnabled, outcome with
  | true, CatOutcome.labels ls =>
    match ls.get? i with
    | some c => if c ∈ CATEGORIES then c else "Uncategorized"
    | none => "Uncategorized"
  | true, CatOutcome.failure => "Uncategorized"
  | false, _ => "Uncategorized"

/-- The fence-stripping worker of the model-response decode: Python
`s.split(sep)` for a non-empty separator.  `acc` is the reversed current
piece; fuel bounds the recursion by the input length. -/
def pySplitAux (sep : List Char) : Nat → List Char → List Char → List String
  | 0, l, acc => [String.mk (acc.reverse ++ l)]
  | _ + 1, [], acc => [String.mk acc.reverse]
  | fuel + 1, c :: rest, acc =>
    if listPrefixB sep (c :: rest) then
      String.mk acc.reverse :: pySplitAux sep fuel (List.drop sep.length (c :: rest)) []
    else pySplitAux sep fuel rest (c :: acc)

/-- Python `s.split(sep)` for a non-empty separator. -/
def pySplit (s sep : String) : List String :=
  pySplitAux sep.toList (s.toList.length + 1) s.toList []

/-- The markdown-fence stripping of `parse_receipt_with_ai` (src/app.py
lines 104-105): when the response starts with a fence, cut out the text
between the first `` ```json `` (preferred) or `` ``` `` and the next
`` ``` ``, and strip it.  The guarded Python index `[1]` always exists, so
`getD` never takes its default. -/
def stripCodeFences (result : String) : String :=
  if listPrefixB "```".toList result.toList then
    if listInfixB "```json".toList result.toList then
      pyStrip ((pySplit ((pySplit result "```json").getD 1 "") "```").getD 0 "")
    else
      pyStrip ((pySplit ((pySplit result "```").getD 1 "") "```").getD 0 "")
  else result

theorem rat_floor_eq_intFloor (x : ℚ) : x.floor = ⌊x⌋ :=
  (Rat.floor_def' x).trans Rat.floor_def.symm

theorem rhe_abs (x : ℚ) : |(rhe x : ℚ) - x| ≤ 1 / 2 := by
  have h0 : (⌊x⌋ : ℚ) ≤ x := Int.floor_le x
  have h1 : x < (⌊x⌋ : ℚ) + 1 := Int.lt_floor_add_one x
  unfold rhe
  rw [rat_floor_eq_intFloor]
  split_ifs <;> rw [abs_le] <;> push_cast <;> constructor <;> linarith

theorem pyRound2_abs (x : ℚ) : |pyRound2 x - x| ≤ 1 / 200 := by
  have h := rhe_abs (x * 100)
  have : pyRound2 x - x = ((rhe (x * 100) : ℚ) - x * 100) / 100 := by
    unfold pyRound2; ring
  rw [this, abs_div]
  have h100 : |(100 : ℚ)| = 100 := by norm_num
  rw [h100]
  linarith

theorem filterMap_keep_eq_map_filter (l : List (String × Int)) :
    (l.filterMap fun p => if keepTok p then some p.2 else none) =
      (l.filter keepTok).map Prod.snd := by
  induction l with
  | nil => rfl
  | cons a t ih =>
    cases h : keepTok a <;> simp [List.filterMap_cons, List.filter_cons, h, ih]

/-- Claim C1: for every ordered sequence of (token, confidence) pairs, the
Confidence Scorer filters to entries whose confidence is > 0 and whose
trimmed token text is non-empty; if the filtered set is empty it returns
exactly 0.3, and otherwise the mean of the filtered confidences divided by
100, rounded to 2 decimal places. -/
theorem confidence_score_matches_spec (tokens : List (String × Int)) :
    get_tesseract_confidence tokens = confidenceScoreSpec tokens := by
  unfold get_tesseract_confidence confidenceScoreSpec
  rw [filterMap_keep_eq_map_filter]
  rcases h : tokens.filter keepTok with _ | ⟨a, t⟩
  · simp
  · simp

/-- Claim C2: the AI structuring pipeline fails with a low-confidence error
carrying the measured score and the threshold exactly when the score is
strictly below the threshold, and proceeds past the gate (toward the
language-model call) exactly when the score is greater than or equal to the
threshold — the boundary is inclusive. -/
theorem confidence_gate_spec (s t : ℚ) :
    (parse_receipt_gate s t = Except.error (s, t) ↔ s < t) ∧
    (parse_receipt_gate s t = Except.ok () ↔ t ≤ s) := by
  by_cases h : s < t
  · simp [parse_receipt_gate, h, not_le.mpr h]
  · simp [parse_receipt_gate, h, not_lt.mp h]

theorem rhe_intCast (n : ℤ) : rhe ((n : ℚ)) = n := by
  unfold rhe
  rw [rat_floor_eq_intFloor, Int.floor_intCast]
  norm_num

theorem rhe_roundup (x : ℚ) (n : ℤ) (h1 : (n : ℚ) ≤ x) (h2 : (n : ℚ) + 1 / 2 < x)
    (h3 : x < (n : ℚ) + 1) : rhe x = n + 1 := by
  have hf : ⌊x⌋ = n := Int.floor_eq_iff.mpr ⟨h1, by linarith⟩
  unfold rhe
  rw [rat_floor_eq_intFloor, hf]
  rw [if_neg (by linarith), if_pos (by linarith)]

theorem twoDecVal_005 : twoDecVal ['0'] '0' '5' = 1 / 20 := by
  unfold twoDecVal
  rw [show (10 * ('0'.toNat - 48) + ('5'.toNat - 48) : ℕ) = 5 from by decide,
    show digitsToNat ['0'] = 0 from by decide]
  norm_num

theorem twoDecVal_700 : twoDecVal ['7'] '0' '0' = 7 := by
  unfold twoDecVal
  rw [show (10 * ('0'.toNat - 48) + ('0'.toNat - 48) : ℕ) = 0 from by decide,
    show digitsToNat ['7'] = 7 from by decide]
  norm_num

theorem pyRound2_gum : pyRound2 (1 / 20 / ((7 : ℕ) : ℚ)) = 1 / 100 := by
  unfold pyRound2
  rw [show (1 / 20 / ((7 : ℕ) : ℚ)) * 100 = 5 / 7 by push_cast; norm_num]
  rw [rhe_roundup (5 / 7) 0 (by norm_num) (by norm_num) (by norm_num)]
  norm_num

theorem pyRound2_milk : pyRound2 (7 / ((2 : ℕ) : ℚ)) = 7 / 2 := by
  unfold pyRound2
  rw [show (7 / ((2 : ℕ) : ℚ)) * 100 = ((350 : ℤ) : ℚ) by push_cast; norm_num]
  rw [rhe_intCast]
  norm_num

theorem parse_eq_gum : parseItemLine "7 x Gum 0.05" =
    Except.ok (some { description := "Gum", quantity := 7,
                      unitPrice := 1 / 100, total := 1 / 20 }) := by
  have h0 : parseItemLine "7 x Gum 0.05" =
      Except.ok (some ⟨"Gum", digitsToNat ['7'],
        pyRound2 (twoDecVal ['0'] '0' '5' / ((digitsToNat ['7'] : ℕ) : ℚ)),
        twoDecVal ['0'] '0' '5'⟩) := rfl
  rw [h0, show digitsToNat ['7'] = 7 from by decide, twoDecVal_005, pyRound2_gum]

theorem parse_eq_milk2 : parseItemLine "2 x Milk 7.00" =
    Except.ok (some { description := "Milk", quantity := 2,
                      unitPrice := 7 / 2, total := 7 }) := by
  have h0 : parseItemLine "2 x Milk 7.00" =
      Except.ok (some ⟨"Milk", digitsToNat ['2'],
        pyRound2 (twoDecVal ['7'] '0' '0' / ((digitsToNat ['2'] : ℕ) : ℚ)),
        twoDecVal ['7'] '0' '0'⟩) := rfl
  rw [h0, show digitsToNat ['2'] = 2 from by decide, twoDecVal_700, pyRound2_milk]

/-- Claim C3 (the code contradicts it): on the line `"0 x Milk 4.99"` the
Item Line Parser does not reject the captured zero quantity as a
non-match; it reaches `round(item_price / quantity, 2)` with
`quantity == 0` and raises `ZeroDivisionError` (the `Except.error ()`
branch of the embedding), which no handler in `scan_receipt`'s loop
catches.  The claim's division-error branch is therefore reachable. -/
theorem zero_quantity_line_divzero :
    parseItemLine "0 x Milk 4.99" = Except.error () := rfl

theorem round_div_mul_close (p : ℚ) (q : ℕ) (hq : q ≠ 0) :
    |pyRound2 (p / (q : ℚ)) * (q : ℚ) - p| ≤ (q : ℚ) / 200 := by
  have hqpos : (0 : ℚ) < (q : ℚ) := by exact_mod_cast Nat.pos_of_ne_zero hq
  have habs := pyRound2_abs (p / (q : ℚ))
  have key : pyRound2 (p / (q : ℚ)) * (q : ℚ) - p =
      (pyRound2 (p / (q : ℚ)) - p / (q : ℚ)) * (q : ℚ) := by
    field_simp
  rw [key, abs_mul, abs_of_pos hqpos]
  calc |pyRound2 (p / (q : ℚ)) - p / (q : ℚ)| * (q : ℚ)
      ≤ (1 / 200) * (q : ℚ) := mul_le_mul_of_nonneg_right habs hqpos.le
    _ = (q : ℚ) / 200 := by ring

/-- Claim C5 is false as stated: the item line `"7 x Gum 0.05"` is accepted
with quantity 7 > 1, unitPrice = round(0.05 / 7, 2) = 0.01, and
`|unitPrice * quantity - lineTotal| = |0.07 - 0.05| = 0.02 > 0.01`. -/
theorem unit_price_tolerance_cex :
    parseItemLine "7 x Gum 0.05" =
      Except.ok (some { description := "Gum", quantity := 7,
                        unitPrice := 1 / 100, total := 1 / 20 }) ∧
    ¬ (|(1 / 100 : ℚ) * ((7 : ℕ) : ℚ) - 1 / 20| ≤ 1 / 100) := by
  refine ⟨parse_eq_gum, ?_⟩
  rw [show (1 / 100 : ℚ) * ((7 : ℕ) : ℚ) - 1 / 20 = 1 / 50 by push_cast; norm_num]
  rw [abs_of_nonneg (by norm_num : (0 : ℚ) ≤ 1 / 50)]
  norm_num

/-- Claim C5, amended: for every item line accepted by the Item Line Parser
with a quantity marker and quantity > 1, the emitted unitPrice — computed as
`round(lineTotal / quantity, 2)` — satisfies
`|unitPrice * quantity - lineTotal| ≤ quantity * 0.005` (half a cent per
unit; the claim's fixed bound 0.01 holds only for quantity ≤ 2). -/
theorem unit_price_within_tolerance (line : String) (it : RawItem)
    (h : parseItemLine line = Except.ok (some it)) (hq : 1 < it.quantity) :
    |it.unitPrice * (it.quantity : ℚ) - it.total| ≤ (it.quantity : ℚ) / 200 := by
  unfold parseItemLine at h
  split at h
  · exact absurd h (by simp)
  · dsimp only at h
    split at h
    · exact absurd h (by simp)
    · split at h
      · exact absurd h (by simp)
      · split at h
        · split at h
          · exact absurd h (by simp)
          · injection h with h1
            injection h1 with h2
            subst h2
            simp only at hq ⊢
            exact round_div_mul_close _ _ (by omega)
        · injection h with h1
          injection h1 with h2
          subst h2
          exact absurd hq (by simp)

/-- Witness for the amended claim C5 at the concrete line
`"2 x Milk 7.00"`: quantity 2 > 1 and the bound holds there. -/
theorem unit_price_within_tolerance_witness :
    |(7 / 2 : ℚ) * ((2 : ℕ) : ℚ) - 7| ≤ ((2 : ℕ) : ℚ) / 200 :=
  unit_price_within_tolerance "2 x Milk 7.00"
    { description := "Milk", quantity := 2, unitPrice := 7 / 2, total := 7 }
    parse_eq_milk2 (by norm_num)

/-- Claim C4 is false as stated: for the OCR text `"\nSuperMart"` the
extractor takes the first raw line — the empty string — as the store name,
not the first non-empty line `"SuperMart"` that the claim demands. -/
theorem store_first_line_cex :
    storeOf "\nSuperMart" = "" ∧
    firstNonEmptyLineStore "\nSuperMart" = "SuperMart" ∧
    storeOf "\nSuperMart" ≠ firstNonEmptyLineStore "\nSuperMart" := by
  refine ⟨rfl, rfl, ?_⟩
  decide

/-- Claim C4, amended: the extractor takes the first raw line of
`splitlines` — even when it is empty or whitespace-only — as the store
name, and returns `"Unknown Store"` exactly when the text yields no lines
(the empty text). -/
theorem store_is_first_raw_line (t : String) :
    (pySplitlines t = [] → storeOf t = "Unknown Store") ∧
    ∀ l ls, pySplitlines t = l :: ls → storeOf t = l := by
  constructor
  · intro h; simp [storeOf, h]
  · intro l ls h; simp [storeOf, h]

/-- Witness for the amended claim C4 at the empty text and at a two-line
text whose first line is non-empty. -/
theorem store_is_first_raw_line_witness :
    storeOf "" = "Unknown Store" ∧ storeOf "Lidl\nMilk 4.99" = "Lidl" :=
  ⟨(store_is_first_raw_line "").1 rfl,
   (store_is_first_raw_line "Lidl\nMilk 4.99").2 "Lidl" ["Milk 4.99"] rfl⟩

theorem mem_of_listPrefixB : ∀ (n h : List Char), listPrefixB n h = true →
    ∀ x ∈ n, x ∈ h := by
  intro n
  induction n with
  | nil => intro h _ x hx; simp at hx
  | cons a t ih =>
    intro h hp x hx
    cases h with
    | nil => simp [listPrefixB] at hp
    | cons b h2 =>
      simp only [listPrefixB, Bool.and_eq_true, beq_iff_eq] at hp
      rcases hp with ⟨rfl, hp2⟩
      rcases List.mem_cons.mp hx with rfl | hx2
      · exact List.mem_cons_self x h2
      · exact List.mem_cons_of_mem a (ih h2 hp2 x hx2)

theorem mem_of_listInfixB : ∀ (h n : List Char), listInfixB n h = true →
    ∀ x ∈ n, x ∈ h := by
  intro h
  induction h with
  | nil =>
    intro n hi x hx
    simp only [listInfixB, List.isEmpty_iff] at hi
    subst hi; simp at hx
  | cons c rest ih =>
    intro n hi x hx
    simp only [listInfixB, Bool.or_eq_true] at hi
    rcases hi with hp | hi2
    · exact mem_of_listPrefixB n (c :: rest) hp x hx
    · exact List.mem_cons_of_mem c (ih n hi2 x hx)

theorem toLower_of_space (c : Char) (h : isPySpace c = true) :
    Char.toLower c = c := by
  simp only [isPySpace, Bool.or_eq_true, beq_iff_eq] at h
  rcases h with ((((h | h) | h) | h) | h) | h <;> subst h <;> decide

theorem mem_dropWhile_of_not (p : Char → Bool) :
    ∀ (l : List Char) (x : Char), x ∈ l → p x = false → x ∈ l.dropWhile p := by
  intro l
  induction l with
  | nil => intro x hx; simp at hx
  | cons a t ih =>
    intro x hx hpx
    rw [List.dropWhile_cons]
    by_cases hpa : p a
    · rcases List.mem_cons.mp hx with rfl | hxt
      · rw [hpa] at hpx; cases hpx
      · simp only [hpa, if_true]; exact ih x hxt hpx
    · simp only [hpa, if_false]
      exact hx

theorem stripList_ne_nil (l : List Char) (x : Char) (hx : x ∈ l)
    (hpx : isPySpace x = false) : stripList l ≠ [] := by
  unfold stripList
  intro hcontra
  have h1 : x ∈ l.dropWhile isPySpace := mem_dropWhile_of_not _ l x hx hpx
  have h2 : x ∈ (l.dropWhile isPySpace).reverse := List.mem_reverse.mpr h1
  have h3 : x ∈ (l.dropWhile isPySpace).reverse.dropWhile isPySpace :=
    mem_dropWhile_of_not _ _ x h2 hpx
  have h4 : x ∈ ((l.dropWhile isPySpace).reverse.dropWhile isPySpace).reverse :=
    List.mem_reverse.mpr h3
  rw [hcontra] at h4
  simp at h4

theorem pyStrip_ne_empty_of_t (line : String)
    (h : 't' ∈ line.toList.map Char.toLower) : pyStrip line ≠ "" := by
  rcases List.mem_map.mp h with ⟨c, hc, hlc⟩
  have hcs : isPySpace c = false := by
    cases hsp : isPySpace c
    · rfl
    · exfalso
      have hcc := toLower_of_space c hsp
      rw [hcc] at hlc
      subst hlc
      exact absurd hsp (by decide)
  intro hs
  have hdata : stripList line.toList = [] := by
    have := congrArg String.toList hs
    simpa [pyStrip] using this
  exact stripList_ne_nil line.toList c hc hcs hdata

/-- Claim C6: a line whose lower-cased text contains `"total"` or
`"subtotal"` is classified as a total line: the extraction step leaves the
date, tax and item buckets untouched (so the line is never routed to the
item bucket, and the total keyword takes precedence over the date pattern
even when the line would match it), and overwrites the running total with
the last number of the form `\d+\.\d\d` in the line when one exists,
keeping the previous running total otherwise. -/
theorem total_keyword_line_classification (acc : ExtractAcc) (line : String)
    (h : listInfixB "total".toList (line.toList.map Char.toLower) = true ∨
         listInfixB "subtotal".toList (line.toList.map Char.toLower) = true) :
    processLine acc line =
      Except.ok { acc with total := ((findTwoDec line.toList).getLast?).getD acc.total } := by
  have hkw : hasTotalKw line = true := by
    unfold hasTotalKw
    rw [Bool.or_eq_true]
    rcases h with h | h
    · right; simpa using h
    · left; simpa using h
  have ht : 't' ∈ line.toList.map Char.toLower := by
    rcases h with h | h
    · exact mem_of_listInfixB _ _ h 't' (by decide)
    · exact mem_of_listInfixB _ _ h 't' (by decide)
  have hne : pyStrip line ≠ "" := pyStrip_ne_empty_of_t line ht
  unfold processLine
  rw [if_neg hne, if_pos hkw]

/-- Witness for claim C6 at the concrete line `"Subtotal 7.00"` (which also
contains `"total"`): the running total 0 is overwritten with 7.00 and
nothing else changes. -/
theorem total_keyword_line_classification_witness :
    processLine ⟨"", 0, 0, []⟩ "Subtotal 7.00" = Except.ok ⟨"", 7, 0, []⟩ := by
  have h := total_keyword_line_classification ⟨"", 0, 0, []⟩ "Subtotal 7.00"
    (Or.inl (by decide))
  rw [h]
  rw [show findTwoDec "Subtotal 7.00".toList = [twoDecVal ['7'] '0' '0'] from rfl]
  rw [show ([twoDecVal ['7'] '0' '0'].getLast?).getD (0 : ℚ) = twoDecVal ['7'] '0' '0'
    from rfl]
  rw [twoDecVal_700]

theorem claimedCategory_mem (aiEnabled : Bool) (outcome : CatOutcome) (i : ℕ) :
    claimedCategory aiEnabled outcome i ∈ CATEGORIES := by
  cases aiEnabled <;> cases outcome
  case false.failure => exact (by decide : "Uncategorized" ∈ CATEGORIES)
  case false.labels ls => exact (by decide : "Uncategorized" ∈ CATEGORIES)
  case true.failure => exact (by decide : "Uncategorized" ∈ CATEGORIES)
  case true.labels ls =>
    rcases hg : ls.get? i with _ | c
    · simp only [claimedCategory, hg]
      exact (by decide : "Uncategorized" ∈ CATEGORIES)
    · simp only [claimedCategory, hg]
      by_cases hc : c ∈ CATEGORIES
      · simp [hc]
      · simp only [hc, if_false, ite_false]
        exact (by decide : "Uncategorized" ∈ CATEGORIES)

theorem assignCategories_get? :
    ∀ (items : List CatItem) (ls : List String) (i : ℕ),
    (assignCategories items ls).get? i =
      (items.get? i).map
        (fun it =>
          { it with category := some (claimedCategory true (CatOutcome.labels ls) i) }) := by
  intro items
  induction items with
  | nil => intro ls i; cases ls <;> simp [assignCategories]
  | cons it rest ih =>
    intro ls i
    cases ls with
    | nil =>
      cases i with
      | zero => rfl
      | succ j =>
        simp only [assignCategories, List.get?_cons_succ]
        exact ih [] j
    | cons c cs =>
      cases i with
      | zero => rfl
      | succ j =>
        simp only [assignCategories, List.get?_cons_succ]
        exact ih cs j

theorem setAllUncategorized_get? (items : List CatItem) (i : ℕ) :
    (setAllUncategorized items).get? i =
      (items.get? i).map (fun it => { it with category := some "Uncategorized" }) := by
  unfold setAllUncategorized
  rw [List.get?_eq_getElem?, List.get?_eq_getElem?, List.getElem?_map]

/-- Claim C7: the categorization phase of the deterministic scan is
fail-safe — for every non-empty item list, every model outcome (a label
list of any length, labels outside the closed category set, or any raised
failure, the `CatOutcome.failure` case covering every exception escaping
`categorize_items_with_ai`), and every position `i`, the `i`-th returned
item is exactly the `i`-th input item with its category set to
`claimedCategory`: the model's `i`-th label when AI is enabled, the label
exists and belongs to the closed set, and the literal `"Uncategorized"`
filling every gap — a label list shorter than the item count, a label
outside the set, a model failure, or AI disabled; that category is always
a member of the closed set, and the phase is a total function, so the scan
request is still answered with the success record rather than failing. -/
theorem categorization_failsafe (aiEnabled : Bool) (outcome : CatOutcome)
    (items : List CatItem) (h : items ≠ []) :
    ∀ i : ℕ,
      (scanCategorizePhase aiEnabled outcome items).get? i =
        (items.get? i).map
          (fun it =>
            { it with category := some (claimedCategory aiEnabled outcome i) }) ∧
      claimedCategory aiEnabled outcome i ∈ CATEGORIES := by
  intro i
  refine ⟨?_, claimedCategory_mem aiEnabled outcome i⟩
  have hne : items.isEmpty = false := by
    cases items
    · exact absurd rfl h
    · rfl
  cases aiEnabled with
  | false =>
    have hphase : scanCategorizePhase false outcome items = setAllUncategorized items := by
      simp [scanCategorizePhase, hne]
    rw [hphase, setAllUncategorized_get?]
    cases outcome <;> rfl
  | true =>
    cases outcome with
    | failure =>
      have hphase : scanCategorizePhase true CatOutcome.failure items =
          setAllUncategorized items := by
        simp [scanCategorizePhase, hne]
      rw [hphase, setAllUncategorized_get?]
      rfl
    | labels ls =>
      have hphase : scanCategorizePhase true (CatOutcome.labels ls) items =
          assignCategories items ls := by
        simp [scanCategorizePhase, categorize_items_with_ai, hne]
      rw [hphase]
      exact assignCategories_get? items ls i

/-- Witness for claim C7: two items, AI enabled, the model answering one
label outside the category set — position 0 exercises the invalid-label
coercion and position 1 the short-list gap, both filled with
`"Uncategorized"`. -/
theorem categorization_failsafe_witness :
    ((scanCategorizePhase true (CatOutcome.labels ["Snacks"])
        [⟨⟨"Gum", 1, 1, 1⟩, none⟩, ⟨⟨"Milk", 1, 2, 2⟩, none⟩]).get? 0 =
      (([⟨⟨"Gum", 1, 1, 1⟩, none⟩, ⟨⟨"Milk", 1, 2, 2⟩, none⟩] : List CatItem).get? 0).map
        (fun it =>
          { it with
            category := some (claimedCategory true (CatOutcome.labels ["Snacks"]) 0) }) ∧
      claimedCategory true (CatOutcome.labels ["Snacks"]) 0 ∈ CATEGORIES) ∧
    ((scanCategorizePhase true (CatOutcome.labels ["Snacks"])
        [⟨⟨"Gum", 1, 1, 1⟩, none⟩, ⟨⟨"Milk", 1, 2, 2⟩, none⟩]).get? 1 =
      (([⟨⟨"Gum", 1, 1, 1⟩, none⟩, ⟨⟨"Milk", 1, 2, 2⟩, none⟩] : List CatItem).get? 1).map
        (fun it =>
          { it with
            category := some (claimedCategory true (CatOutcome.labels ["Snacks"]) 1) }) ∧
      claimedCategory true (CatOutcome.labels ["Snacks"]) 1 ∈ CATEGORIES) :=
  ⟨categorization_failsafe true (CatOutcome.labels ["Snacks"])
      [⟨⟨"Gum", 1, 1, 1⟩, none⟩, ⟨⟨"Milk", 1, 2, 2⟩, none⟩] (List.cons_ne_nil _ _) 0,
   categorization_failsafe true (CatOutcome.labels ["Snacks"])
      [⟨⟨"Gum", 1, 1, 1⟩, none⟩, ⟨⟨"Milk", 1, 2, 2⟩, none⟩] (List.cons_ne_nil _ _) 1⟩

theorem assignCategories_frame :
    ∀ (items : List CatItem) (labels : List String),
    (assignCategories items labels).map CatItem.toRawItem =
      items.map CatItem.toRawItem := by
  intro items
  induction items with
  | nil => intro labels; cases labels <;> rfl
  | cons it rest ih =>
    intro labels
    cases labels with
    | nil => simp [assignCategories, ih []]
    | cons c cs => simp [assignCategories, ih cs]

/-- Claim C10: AI batch categorization only writes the category field — the
returned list has the same length and order as the input, and every item's
description, quantity, unitPrice and total are unchanged (erasing the
category field from the output yields exactly the raw input items, in
order). -/
theorem categorize_frame_effect (items : List CatItem) (labels : List String) :
    (categorize_items_with_ai items labels).map CatItem.toRawItem =
      items.map CatItem.toRawItem := by
  unfold categorize_items_with_ai
  by_cases he : items.isEmpty
  · rw [if_pos he]
  · rw [if_neg he]
    exact assignCategories_frame items labels

/-- Claim C8: decoding a model response wrapped in a single markdown fence
tagged `json` yields the same parsed structure as decoding the unwrapped
payload — fence stripping on the concrete response returns exactly the
payload string, so any decoder applied afterwards (in particular the JSON
parser) produces the identical result. -/
theorem fence_strip_decode_eq {α : Type} (decode : String → α) :
    decode (stripCodeFences "```json\n\x7b\"store\":\"X\",\"items\":[]\x7d\n```") =
      decode "\x7b\"store\":\"X\",\"items\":[]\x7d" := by
  rw [show stripCodeFences "```json\n\x7b\"store\":\"X\",\"items\":[]\x7d\n```" =
    "\x7b\"store\":\"X\",\"items\":[]\x7d" from rfl]

/-- Claim C9 is false as stated: the OCR text `"0 x A 1.00"` has no line
matching the total, tax or date rules, yet the deterministic scan does not
return a success record with the defaults — the zero captured quantity
raises `ZeroDivisionError` and the route answers with an error response. -/
theorem defaults_claim_cex :
    ((pySplitlines "0 x A 1.00").all fun line =>
      !(hasTotalKw line) && !(hasTaxKw line) && !(dateSearch line.toList)) = true ∧
    scanExtract "0 x A 1.00" = Except.error () := by
  constructor
  · decide
  · rfl

theorem processLine_no_rule (line : String) (h1 : hasTotalKw line = false)
    (h2 : hasTaxKw line = false) (h3 : dateSearch line.toList = false)
    (acc acc2 : ExtractAcc) (hok : processLine acc line = Except.ok acc2) :
    acc2.date = acc.date ∧ acc2.total = acc.total ∧ acc2.tax = acc.tax := by
  unfold processLine at hok
  by_cases hs : pyStrip line = ""
  · rw [if_pos hs] at hok
    injection hok with h
    subst h
    exact ⟨rfl, rfl, rfl⟩
  · simp only [if_neg hs, h1, h2, h3, Bool.false_eq_true, if_false, ite_false] at hok
    rcases hpi : parseItemLine (pyStrip line) with e | o
    · rw [hpi] at hok
      exact absurd hok (by simp)
    · rw [hpi] at hok
      cases o with
      | none =>
        injection hok with h
        subst h
        exact ⟨rfl, rfl, rfl⟩
      | some it =>
        injection hok with h
        subst h
        exact ⟨rfl, rfl, rfl⟩

theorem scanLines_no_rules :
    ∀ (lines : List String),
    (∀ line ∈ lines, hasTotalKw line = false ∧ hasTaxKw line = false ∧
      dateSearch line.toList = false) →
    ∀ (acc acc2 : ExtractAcc), scanLines acc lines = Except.ok acc2 →
    acc2.date = acc.date ∧ acc2.total = acc.total ∧ acc2.tax = acc.tax := by
  intro lines
  induction lines with
  | nil =>
    intro _ acc acc2 hok
    injection hok with h
    subst h
    exact ⟨rfl, rfl, rfl⟩
  | cons l rest ih =>
    intro hall acc acc2 hok
    unfold scanLines at hok
    rcases hpl : processLine acc l with e | accMid
    · rw [hpl] at hok
      exact absurd hok (by simp)
    · rw [hpl] at hok
      have hl := hall l (List.mem_cons_self l rest)
      have hstep := processLine_no_rule l hl.1 hl.2.1 hl.2.2 acc accMid hpl
      have hrest := ih (fun x hx => hall x (List.mem_cons_of_mem _ hx)) accMid acc2 hok
      exact ⟨hrest.1.trans hstep.1, hrest.2.1.trans hstep.2.1, hrest.2.2.trans hstep.2.2⟩

/-- Claim C9, amended: if no line of the OCR text matches the total rule,
the tax rule or the date rule, then whenever the deterministic scan
completes without the zero-quantity division error (which the unguarded
item branch can raise, see the counterexample), the returned success record
has total = 0.0, tax = 0.0 and date = "" — numeric and empty-string
defaults, not nulls. -/
theorem defaults_on_no_rule_match (text : String) (res : ScanResult)
    (hrules : ∀ line ∈ pySplitlines text, hasTotalKw line = false ∧
      hasTaxKw line = false ∧ dateSearch line.toList = false)
    (hok : scanExtract text = Except.ok res) :
    res.total = 0 ∧ res.tax = 0 ∧ res.date = "" := by
  unfold scanExtract at hok
  rcases hsl : scanLines ⟨"", 0, 0, []⟩ (pySplitlines text) with e | acc
  · rw [hsl] at hok
    exact absurd hok (by simp)
  · rw [hsl] at hok
    injection hok with h
    subst h
    have hfields := scanLines_no_rules (pySplitlines text) hrules _ _ hsl
    exact ⟨hfields.2.1, hfields.2.2, hfields.1⟩

/-- Witness for the amended claim C9 at the concrete OCR text
`"Hello world"`: no rule matches and the scan succeeds with the
defaults. -/
theorem defaults_on_no_rule_match_witness :
    ScanResult.total ⟨"Hello world", "", 0, 0, []⟩ = 0 ∧
    ScanResult.tax ⟨"Hello world", "", 0, 0, []⟩ = 0 ∧
    ScanResult.date ⟨"Hello world", "", 0, 0, []⟩ = "" :=
  defaults_on_no_rule_match "Hello world" ⟨"Hello world", "", 0, 0, []⟩
    (by decide) rfl
